import Mathlib

/-!
Shallow embedding of `src/LogCollector.py` (sm-projects/sm-logly): a
directory-watching, incremental log-tailing agent.  File contents are
modelled as strings of characters (the scenarios are ASCII, so characters
coincide with bytes); the filesystem is a snapshot mapping entry names to
contents, in directory-listing order.  The methods `update_files`,
`readlines`, `tail` and `close` are called by the source but their bodies
are not present in `src/`; those are modelled from the spec and say so in
their doc comments.  Everything else is translated from the source.
-/

namespace Logly

/-- A filesystem snapshot of the watch directory: entries in listing order,
each a `(name, content)` pair. -/
structure FS where
  entries : List (String × String)
deriving DecidableEq

/-- The names `os.listdir` would return, in listing order. -/
def FS.names (fs : FS) : List String := fs.entries.map Prod.fst

/-- Content of an entry, if present. -/
def FS.lookup (fs : FS) (n : String) : Option String :=
  (fs.entries.find? (fun e => e.1 == n)).map Prod.snd

/-- `os.path.getsize` on an entry (0 for a missing entry; the callers below
only use it on entries that were just listed). -/
def FS.size (fs : FS) (n : String) : Nat :=
  (((fs.lookup n).getD "").toList).length

/-- Helper for `pyExt`: `pre` holds the characters already scanned, in
reverse.  Returns the characters after the last `'.'` that counts as an
extension separator in CPython's `os.path.splitext`: the last `'.'` counts
only if some character before it is not a `'.'` (leading dots of a file
name never start an extension). -/
def pyExtAux : List Char → List Char → Option (List Char)
  | _, [] => none
  | pre, c :: rest =>
    match pyExtAux (c :: pre) rest with
    | some e => some e
    | none => if c == '.' && pre.any (· != '.') then some rest else none

/-- `os.path.splitext(x)[1][1:]` as used at source line 87: the extension of
a bare file name, without its dot; `""` when there is none. -/
def pyExt (s : String) : String :=
  match pyExtAux [] s.toList with
  | some e => String.mk e
  | none => ""

/-- The claim/spec-side notion of extension, written from the spec's words:
"the suffix after the last '.'" (empty when the name has no dot).  Kept
separate from `pyExt` so the two can be compared. -/
def suffAux : List Char → Option (List Char)
  | [] => none
  | c :: rest =>
    match suffAux rest with
    | some e => some e
    | none => if c == '.' then some rest else none

/-- See `suffAux`. -/
def suffixAfterLastDot (s : String) : String :=
  (suffAux s.toList).elim "" String.mk

/-- `LogCollector.listdir` (source lines 82-88): list the directory; if the
extensions list is non-empty (Python truthiness of `self.extensions`),
keep entries whose `splitext` extension is in it, else return everything. -/
def listdir (fs : FS) (extensions : List String) : List String :=
  let dirlist := fs.names
  if extensions.isEmpty then dirlist
  else dirlist.filter (fun x => extensions.contains (pyExt x))

/-- A tracked file: its name (the key of `self._files_to_watch` and the
open handle's `name`) and the stored read offset. -/
structure WatchedFile where
  name : String
  offset : Nat
deriving DecidableEq

/-- Modelled from the spec: `update_files` is called at source lines 43 and
71 but its body is not under `src/`.  Per the spec (refresh): list the
directory through the extension filter, keep still-present tracked files
untouched, drop entries for files no longer present (handle closed), and
open newly matching files with offset 0. -/
def update_files (fs : FS) (extensions : List String) (reg : List WatchedFile) :
    List WatchedFile :=
  let names := listdir fs extensions
  let kept := reg.filter (fun w => names.contains w.name)
  let added := (names.filter (fun n => !(reg.any (fun w => w.name == n)))).map
    (fun n => WatchedFile.mk n 0)
  kept ++ added

/-- `content.split("\n")`-style split: pieces of a character list between
newlines, keeping empty pieces (so a trailing newline yields a final empty
piece, as in Python). -/
def splitNL : List Char → List (List Char)
  | [] => [[]]
  | c :: rest =>
    let r := splitNL rest
    if c == '\n' then [] :: r
    else
      match r with
      | [] => [[c]]
      | h :: t => (c :: h) :: t

/-- Modelled from the spec: `tail(name, n)` is called at source line 48 but
its body is not under `src/`.  Per the spec it is a pure bounded backward
read computing the last `n` lines of the file, decoupled from the stored
offset; an empty file yields no lines. -/
def tailLines (content : String) (n : Nat) : List String :=
  let pieces := splitNL content.toList
  let ls := if pieces.getLast? == some [] then pieces.dropLast else pieces
  (ls.drop (ls.length - n)).map String.mk

/-- Outcome of the bootstrap call `self.tail(file.name, tail_lines)`: the
lines, or an `IOError` whose `errno` may or may not be `ENOENT` (the file
can vanish between discovery and this read). -/
inductive TailOutcome
  | ok (lines : List String)
  | ioError (enoent : Bool)

/-- The tail outcome when the filesystem is unchanged since discovery: the
file is still there and its last `n` lines are computed. -/
def tailResOf (fs : FS) (n : Nat) : String → TailOutcome :=
  fun name =>
    match fs.lookup name with
    | some c => .ok (tailLines c n)
    | none => .ioError true

/-- Python exceptions that `__init__` can raise in this model. -/
inductive PyError
  | assertionError
  | notADirectoryError
  | ioError (enoent : Bool)
  | unboundLocal
deriving DecidableEq

/-- The bootstrap loop of `__init__` (source lines 44-54), embedded
faithfully.  For each tracked file: seek the handle to the file's current
size; if `tail_lines` is non-zero, call `tail`.  In the source the block
`else: if lines: self._callback(file.name, lines)` is indented under
`except IOError`, so on a successful tail the lines are merely bound to
the local `lines` and NO callback fires; on an `ENOENT` `IOError` the
handler reads `lines`, which is unbound unless a previous iteration
assigned it (then Python raises `UnboundLocalError`), and otherwise calls
the callback with the current file's name paired with the PREVIOUS file's
lines; a non-`ENOENT` `IOError` is re-raised.  `linesVar` models the local
`lines` (`none` = unbound); `bootStep` is the body for one file, returning
the new `lines` binding and the callback invocations it caused. -/
def bootStep (tail_lines : Nat) (tailRes : String → TailOutcome)
    (linesVar : Option (List String)) (name : String) :
    Except PyError (Option (List String) × List (String × List String)) :=
  if tail_lines == 0 then .ok (linesVar, [])
  else
    match tailRes name with
    | .ok ls => .ok (some ls, [])
    | .ioError true =>
      match linesVar with
      | none => .error .unboundLocal
      | some prev =>
        .ok (some prev, if !prev.isEmpty then [(name, prev)] else [])
    | .ioError false => .error (.ioError false)

/-- The whole bootstrap loop: `bootStep` on each tracked file in order,
threading the local `lines` and collecting the callback invocations; each
file's handle is seeked to the file's current size first. -/
def bootLoop (tail_lines : Nat) (tailRes : String → TailOutcome)
    (szOf : String → Nat) :
    List WatchedFile → Option (List String) →
      Except PyError (List WatchedFile × List (String × List String))
  | [], _ => .ok ([], [])
  | w :: ws, linesVar =>
    match bootStep tail_lines tailRes linesVar w.name with
    | .error e => .error e
    | .ok (lv2, cs0) =>
      match bootLoop tail_lines tailRes szOf ws lv2 with
      | .ok (r, cs) => .ok (⟨w.name, szOf w.name⟩ :: r, cs0 ++ cs)
      | .error e => .error e

/-- `LogCollector.__init__` (source lines 34-54): `assert` the watch path
is a directory and the callback callable (a failing Python `assert` raises
`AssertionError`), run `update_files` on the empty registry, then the
bootstrap loop.  `tailRes` stands for the outcome of each
`self.tail(file.name, tail_lines)` call. -/
def initCollector (isdir : Bool) (isCallable : Bool) (fs : FS)
    (extensions : List String) (tail_lines : Nat)
    (tailRes : String → TailOutcome) :
    Except PyError (List WatchedFile × List (String × List String)) :=
  if !isdir then .error .assertionError
  else if !isCallable then .error .assertionError
  else bootLoop tail_lines tailRes fs.size (update_files fs extensions []) none

/-- Index of the last newline in a character list, if any. -/
def lastNLIdx : List Char → Option Nat
  | [] => none
  | c :: rest =>
    match lastNLIdx rest with
    | some i => some (i + 1)
    | none => if c == '\n' then some 0 else none

/-- Number of characters of a chunk that belong to complete (newline
terminated) lines: everything up to and including the last newline. -/
def consumedLen (cs : List Char) : Nat :=
  (lastNLIdx cs).elim 0 (· + 1)

/-- The complete lines of a chunk: split the consumed part on newlines and
drop the final empty piece left by the terminating newline. -/
def completeLines (cs : List Char) : List String :=
  ((splitNL (cs.take (consumedLen cs))).dropLast).map String.mk

/-- Modelled from the spec: `readlines` is called at source line 73 but its
body is not under `src/`.  Per the spec's read-and-dispatch step: stat the
file; if the current size is smaller than the stored offset, reset the
offset to 0 (truncation/rotation); read at most `maxsize` bytes from the
offset; deliver the chunk's complete lines, advancing the offset past the
consumed bytes only (a trailing unterminated line is held back); a
callback fires exactly when at least one complete line resulted.  A file
that cannot be statted is left untouched for the next refresh to drop. -/
def readlinesStep (fs : FS) (maxsize : Nat) (w : WatchedFile) :
    WatchedFile × Option (String × List String) :=
  match fs.lookup w.name with
  | none => (w, none)
  | some c =>
    let cs := c.toList
    let off := if cs.length < w.offset then 0 else w.offset
    let chunk := (cs.drop off).take maxsize
    let ls := completeLines chunk
    (⟨w.name, off + consumedLen chunk⟩,
      if ls.isEmpty then none else some (w.name, ls))

/-- Observable events of the polling loop. -/
inductive Ev
  | refreshEv
  | readEv (name : String)
  | sleepEv
deriving DecidableEq

/-- The per-file pass inside `loop` (source lines 72-75): read each tracked
file in turn; when `blocking` is false the source executes `return` right
after the FIRST file.  Returns the updated registry, the read events, the
callback invocations, and whether `return` executed. -/
def passFiles (fs : FS) (maxsize : Nat) (blocking : Bool) :
    List WatchedFile →
      List WatchedFile × List Ev × List (String × List String) × Bool
  | [] => ([], [], [], false)
  | w :: ws =>
    let p := readlinesStep fs maxsize w
    if !blocking then (p.1 :: ws, [.readEv w.name], p.2.toList, true)
    else
      let r := passFiles fs maxsize blocking ws
      (p.1 :: r.1, .readEv w.name :: r.2.1, p.2.toList ++ r.2.2.1, r.2.2.2)

/-- One iteration of the `while True` body of `loop` (source lines 70-76):
`update_files`, the pass over the files, then `time.sleep(interval)`
unless the pass executed `return`. -/
def loopOnce (fs : FS) (extensions : List String) (maxsize : Nat)
    (reg : List WatchedFile) (blocking : Bool) :
    List WatchedFile × List Ev × List (String × List String) × Bool :=
  let reg2 := update_files fs extensions reg
  let r := passFiles fs maxsize blocking reg2
  if r.2.2.2 then (r.1, .refreshEv :: r.2.1, r.2.2.1, true)
  else (r.1, .refreshEv :: r.2.1 ++ [.sleepEv], r.2.2.1, false)

/-- `loop` run for at most `fuel` iterations of its `while True` body,
against a fixed filesystem snapshot; the Bool is true iff the `return`
statement executed within the fuel (false = still looping). -/
def loopFuel (fs : FS) (extensions : List String) (maxsize : Nat)
    (blocking : Bool) : List WatchedFile → Nat → List Ev × Bool
  | _, 0 => ([], false)
  | reg, n + 1 =>
    let r := loopOnce fs extensions maxsize reg blocking
    if r.2.2.2 then (r.2.1, true)
    else
      let rest := loopFuel fs extensions maxsize blocking r.1 n
      (r.2.1 ++ rest.1, rest.2)

/-- A collector with its registry and the names whose handles are open. -/
structure Collector where
  reg : List WatchedFile
  openHandles : List String

/-- Modelled from the spec: `close` is called at source lines 61 and 64 but
its body is not under `src/`.  Per the spec it releases every open file
handle held for tracked files. -/
def closeC (c : Collector) : Collector := { c with openHandles := [] }

/-- `__exit__` (source lines 60-61): calls `self.close()`. -/
def exitC (c : Collector) : Collector := closeC c

/-- `__del__` (source lines 63-64): calls `self.close()`. -/
def delC (c : Collector) : Collector := closeC c

/-- `__enter__` (source lines 57-58): returns `self`. -/
def enterC (c : Collector) : Collector := c

/-- The default of the `extensions` parameter (source line 19). -/
def defaultExtensions : List String := ["log"]

/-- Concrete snapshot for the spec's bootstrap scenario. -/
def fsA : FS := ⟨[("a.log", "x=1\nx=2\n")]⟩

/-- Concrete snapshot with two matching files. -/
def fsTwo : FS := ⟨[("a.log", "x=1\n"), ("b.log", "y=1\n")]⟩

/-- Concrete snapshot with one matching and one non-matching file. -/
def fsMixed : FS := ⟨[("a.log", "x=1\n"), ("b.txt", "y=1\n")]⟩

/-- Concrete snapshot with a single matching file. -/
def fsE : FS := ⟨[("a.log", "x=1\n")]⟩

/-- Concrete snapshot containing only a leading-dot file. -/
def fsDot : FS := ⟨[(".log", "x\n")]⟩

/-! ## Helper lemmas -/

/-- The index of the last newline, when it exists, is a valid index. -/
theorem lastNLIdx_lt (cs : List Char) : ∀ i, lastNLIdx cs = some i → i < cs.length := by
  induction cs with
  | nil => intro i h; exact absurd h (by simp [lastNLIdx])
  | cons c rest ih =>
    intro i h
    rw [lastNLIdx] at h
    split at h
    · rename_i j hj
      cases h
      have := ih j hj
      simp only [List.length_cons]
      omega
    · split at h
      · cases h
        simp
      · cases h

/-- The consumed part of a chunk never exceeds the chunk. -/
theorem consumedLen_le (cs : List Char) : consumedLen cs ≤ cs.length := by
  unfold consumedLen
  cases h : lastNLIdx cs with
  | none => simp [Option.elim]
  | some i =>
    have := lastNLIdx_lt cs i h
    simp only [Option.elim]
    omega

/-- Every file in the refreshed registry was returned by `listdir`. -/
theorem mem_update_files (fs : FS) (exts : List String) (reg : List WatchedFile) :
    ∀ w ∈ update_files fs exts reg, w.name ∈ listdir fs exts := by
  intro w hw
  simp only [update_files] at hw
  rcases List.mem_append.mp hw with h1 | h1
  · exact List.elem_iff.mp (List.mem_filter.mp h1).2
  · obtain ⟨n, hn, rfl⟩ := List.mem_map.mp h1
    exact List.mem_of_mem_filter hn

/-- Membership in `listdir` with a non-empty extension list is membership in
the directory with a matching `splitext` extension. -/
theorem mem_listdir_iff (fs : FS) (exts : List String) (h : exts ≠ []) (x : String) :
    x ∈ listdir fs exts ↔ x ∈ fs.names ∧ pyExt x ∈ exts := by
  have hne : exts.isEmpty = false := by
    cases exts with
    | nil => exact absurd rfl h
    | cons a l => rfl
  simp [listdir, hne, List.mem_filter, List.elem_iff]

/-! ## Claim theorems -/

/-- C1: the spec's bootstrap scenario run on the embedded `__init__`: the
directory holds `a.log` with content `"x=1\nx=2\n"` and `tail_lines = 1`;
the claim expects exactly one callback `("a.log", ["x=2"])`.  The code
produces NO callbacks (the callback call at source line 54 sits inside the
`except IOError` handler, unreachable when the tail succeeds) even though
the tail computation itself yields `["x=2"]`. -/
theorem logly_C1_bug :
    initCollector true true fsA ["log"] 1 (tailResOf fsA 1)
      = .ok ([⟨"a.log", 8⟩], []) ∧
    tailLines "x=1\nx=2\n" 1 = ["x=2"] ∧
    ([] : List (String × List String)) ≠ [("a.log", ["x=2"])] :=
  ⟨rfl, rfl, by decide⟩

/-- C2: with two tracked files `a.log` and `b.log` and `blocking = false`,
one iteration of `loop` refreshes, reads only the FIRST file and then
executes `return`: the second tracked file is never read, contradicting
the claimed full pass over every tracked file. -/
theorem logly_C2_bug :
    (update_files fsTwo ["log"] []).map WatchedFile.name = ["a.log", "b.log"] ∧
    (loopOnce fsTwo ["log"] 1048576 [] false).2.2.2 = true ∧
    (loopOnce fsTwo ["log"] 1048576 [] false).2.1
      = [Ev.refreshEv, Ev.readEv "a.log"] ∧
    Ev.readEv "b.log" ∉ (loopOnce fsTwo ["log"] 1048576 [] false).2.1 :=
  ⟨rfl, rfl, by decide, by decide⟩

/-- C4: when the bootstrap tail of the first (and only) tracked file fails
with an `ENOENT` `IOError`, `__init__` does not swallow the error and
continue: the `except` handler reads the unassigned local `lines` and
Python raises `UnboundLocalError`, so construction fails.  A non-`ENOENT`
`IOError` is re-raised, as the claim's second half says. -/
theorem logly_C4_bug :
    initCollector true true fsE ["log"] 1 (fun _ => .ioError true)
      = .error .unboundLocal ∧
    initCollector true true fsE ["log"] 1 (fun _ => .ioError false)
      = .error (.ioError false) :=
  ⟨rfl, rfl⟩

/-- C5 counterexample: when the watch path is not a directory, construction
fails with Python's `AssertionError` (source line 41 is an `assert`), not
with `NotADirectoryError` as claimed. -/
theorem logly_C5_cex :
    initCollector false true fsE ["log"] 1 (tailResOf fsE 1)
      = .error .assertionError ∧
    PyError.assertionError ≠ PyError.notADirectoryError :=
  ⟨rfl, by decide⟩

/-- C5 amended: construction fails by raising an `AssertionError` whenever
the watch path is not a directory, and an `AssertionError` whenever the
callback is not callable; both are raised at construction, before any
refresh or polling. -/
theorem logly_C5 (isdir isCallable : Bool) (fs : FS) (exts : List String)
    (tl : Nat) (tr : String → TailOutcome) :
    (isdir = false →
      initCollector isdir isCallable fs exts tl tr = .error .assertionError) ∧
    (isdir = true → isCallable = false →
      initCollector isdir isCallable fs exts tl tr = .error .assertionError) := by
  constructor
  · intro h; subst h; rfl
  · intro h1 h2; subst h1; subst h2; rfl

/-- C5 witness: the amended theorem applied at concrete inputs. -/
theorem logly_C5_witness :
    initCollector false true fsE ["log"] 1 (tailResOf fsE 1)
        = .error .assertionError ∧
    initCollector true false fsE ["log"] 1 (tailResOf fsE 1)
        = .error .assertionError :=
  ⟨(logly_C5 false true fsE ["log"] 1 (tailResOf fsE 1)).1 rfl,
   (logly_C5 true false fsE ["log"] 1 (tailResOf fsE 1)).2 rfl rfl⟩

/-- C6 counterexample: the entry `".log"` has `"log"` as the suffix after
its last `'.'`, which is in the configured set, yet `listdir` excludes it:
CPython's `splitext` gives a leading-dot file no extension. -/
theorem logly_C6_cex :
    suffixAfterLastDot ".log" = "log" ∧ "log" ∈ ["log"] ∧
    ".log" ∈ fsDot.names ∧ listdir fsDot ["log"] = [] :=
  ⟨rfl, by decide, by decide, rfl⟩

/-- C6 amended: for a non-empty extension list, `listdir` returns exactly
the entries whose `splitext` extension (the suffix after the last `'.'`
that is preceded by some non-dot character; leading dots never start an
extension) is a member, case-sensitively; with an empty extension list it
returns all entries; and every tracked file comes from `listdir`, so an
entry whose `splitext` extension is not in the set is never tracked. -/
theorem logly_C6 (fs : FS) (exts : List String) (reg : List WatchedFile) :
    (exts ≠ [] → ∀ x, x ∈ listdir fs exts ↔ x ∈ fs.names ∧ pyExt x ∈ exts) ∧
    (exts = [] → listdir fs exts = fs.names) ∧
    (∀ w ∈ update_files fs exts reg, w.name ∈ listdir fs exts) := by
  refine ⟨fun h x => mem_listdir_iff fs exts h x, fun h => ?_,
    mem_update_files fs exts reg⟩
  subst h; rfl

/-- C6 witness: the amended theorem applied at concrete inputs. -/
theorem logly_C6_witness :
    ("a.log" ∈ listdir fsTwo ["log"]
        ↔ "a.log" ∈ fsTwo.names ∧ pyExt "a.log" ∈ ["log"]) ∧
    listdir fsMixed [] = fsMixed.names :=
  ⟨(logly_C6 fsTwo ["log"] []).1 (by decide) "a.log",
   (logly_C6 fsMixed [] []).2.1 rfl⟩

/-- C7 counterexample: with the `extensions` parameter absent its default
is `["log"]` (source line 19), so `listdir` keeps only `a.log` out of
`{a.log, b.txt}` — not every file, as the claim (and an empty extension
list) would give. -/
theorem logly_C7_cex :
    defaultExtensions = ["log"] ∧
    listdir fsMixed defaultExtensions = ["a.log"] ∧
    fsMixed.names = ["a.log", "b.txt"] ∧
    listdir fsMixed defaultExtensions ≠ fsMixed.names :=
  ⟨rfl, rfl, rfl, by decide⟩

/-- C7 amended: when the `extensions` option is absent it defaults to
`["log"]`: only entries whose `splitext` extension is `"log"` are listed
and hence tracked, while an explicitly empty extension list includes every
file. -/
theorem logly_C7 (fs : FS) (reg : List WatchedFile) :
    listdir fs defaultExtensions
      = fs.names.filter (fun x => defaultExtensions.contains (pyExt x)) ∧
    listdir fs [] = fs.names ∧
    (∀ w ∈ update_files fs defaultExtensions reg,
      pyExt w.name ∈ defaultExtensions) := by
  refine ⟨rfl, rfl, fun w hw => ?_⟩
  have h1 := mem_update_files fs defaultExtensions reg w hw
  exact ((mem_listdir_iff fs defaultExtensions (by decide) w.name).mp h1).2

/-- C7 witness: the amended theorem applied at concrete inputs. -/
theorem logly_C7_witness :
    listdir fsMixed defaultExtensions
        = fsMixed.names.filter (fun x => defaultExtensions.contains (pyExt x)) ∧
    pyExt (WatchedFile.mk "a.log" 0).name ∈ defaultExtensions :=
  ⟨(logly_C7 fsMixed []).1,
   (logly_C7 fsMixed []).2.2 ⟨"a.log", 0⟩ (by decide)⟩

/-- C3: (i) a refresh preserves `offset ≤ current size` for every tracked
file (kept files are untouched, new files start at offset 0); (ii) after a
read-and-dispatch step on a present file the stored offset is at most the
file's size, unconditionally — in particular a size smaller than the
offset is reset to 0 before reading; (iii) when the observed size is
smaller than the stored offset and the content fits in `maxsize`, the step
reads from offset 0 and delivers exactly the complete lines of the file's
current content from the start. -/
theorem logly_C3 (fs : FS) (exts : List String) (ms : Nat) :
    (∀ reg, (∀ w ∈ reg, w.offset ≤ fs.size w.name) →
      ∀ w ∈ update_files fs exts reg, w.offset ≤ fs.size w.name) ∧
    (∀ (w : WatchedFile) (c : String), fs.lookup w.name = some c →
      ((readlinesStep fs ms w).1).offset ≤ fs.size w.name) ∧
    (∀ (w : WatchedFile) (c : String), fs.lookup w.name = some c →
      c.toList.length < w.offset → c.toList.length ≤ ms →
      readlinesStep fs ms w =
        (⟨w.name, consumedLen c.toList⟩,
          if (completeLines c.toList).isEmpty then none
          else some (w.name, completeLines c.toList))) := by
  refine ⟨?_, ?_, ?_⟩
  · intro reg hreg w hw
    simp only [update_files] at hw
    rcases List.mem_append.mp hw with h1 | h1
    · exact hreg w (List.mem_filter.mp h1).1
    · obtain ⟨n, hn, rfl⟩ := List.mem_map.mp h1
      exact Nat.zero_le _
  · intro w c h
    have hsz : fs.size w.name = c.toList.length := by
      simp [FS.size, h]
    simp only [readlinesStep, h]
    rw [hsz]
    by_cases hlt : c.toList.length < w.offset
    · simp only [if_pos hlt]
      have h1 := consumedLen_le ((c.toList.drop 0).take ms)
      simp only [List.length_take, List.length_drop] at h1
      omega
    · simp only [if_neg hlt]
      have h1 := consumedLen_le ((c.toList.drop w.offset).take ms)
      simp only [List.length_take, List.length_drop] at h1
      omega
  · intro w c h h1 h2
    simp only [readlinesStep, h, if_pos h1, List.drop_zero,
      List.take_of_length_le h2, Nat.zero_add]

/-- C3 witness: the third part applied at a concrete truncated file — the
offset 8 exceeds the 4-character content `"y=1\n"`, the read restarts at 0
and delivers the whole current content. -/
theorem logly_C3_witness :
    readlinesStep ⟨[("a.log", "y=1\n")]⟩ 10 ⟨"a.log", 8⟩
      = (⟨"a.log", 4⟩, some ("a.log", ["y=1"])) := by
  have h := (logly_C3 ⟨[("a.log", "y=1\n")]⟩ ["log"] 10).2.2 ⟨"a.log", 8⟩ "y=1\n"
    (by decide) (by decide) (by decide)
  rw [h]
  decide

/-- Every file in a registry returned by a SUCCESSFUL bootstrap loop holds
the offset the seek of source line 45 gave it: the file's size at
construction time.  (The tail computation never touches it.) -/
theorem bootLoop_offsets (tl : Nat) (tr : String → TailOutcome)
    (sz : String → Nat) :
    ∀ (ws : List WatchedFile) (lv : Option (List String))
      (reg : List WatchedFile) (calls : List (String × List String)),
      bootLoop tl tr sz ws lv = .ok (reg, calls) →
      ∀ w ∈ reg, w.offset = sz w.name := by
  intro ws
  induction ws with
  | nil =>
    intro lv reg calls h w hw
    rw [bootLoop] at h
    cases h
    simp at hw
  | cons x xs ih =>
    intro lv reg calls h w hw
    rw [bootLoop] at h
    split at h
    · cases h
    · rename_i lv2 cs0 hstep
      split at h
      · rename_i r cs heq
        cases h
        rcases List.mem_cons.mp hw with rfl | hmem
        · rfl
        · exact ih lv2 r cs heq w hmem
      · cases h

/-- C8: whenever construction succeeds, every tracked file's stored offset
equals the file's size at construction time (the end-of-file the seek at
source line 45 set), whatever the outcomes of the independent tail reads
were — the tail computation leaves the stored offsets unchanged. -/
theorem logly_C8 (fs : FS) (exts : List String) (tl : Nat)
    (tr : String → TailOutcome) (reg : List WatchedFile)
    (calls : List (String × List String))
    (h : initCollector true true fs exts tl tr = .ok (reg, calls)) :
    ∀ w ∈ reg, w.offset = fs.size w.name := by
  simp only [initCollector, Bool.not_true, Bool.false_eq_true, if_false] at h
  exact bootLoop_offsets tl tr fs.size (update_files fs exts []) none reg calls h

/-- C8 witness: the theorem applied to the concrete bootstrap of `fsA`,
whose only tracked file ends with offset 8 = size of `"x=1\nx=2\n"`. -/
theorem logly_C8_witness :
    (WatchedFile.mk "a.log" 8).offset = fsA.size "a.log" :=
  logly_C8 fsA ["log"] 1 (tailResOf fsA 1) [⟨"a.log", 8⟩] [] rfl
    ⟨"a.log", 8⟩ (by decide)

/-- C9: an explicit `close`, a with-block exit (`__enter__` then
`__exit__`), and object destruction (`__del__`) each leave no open file
handle. -/
theorem logly_C9 (c : Collector) :
    (closeC c).openHandles = [] ∧ (exitC (enterC c)).openHandles = [] ∧
    (delC c).openHandles = [] :=
  ⟨rfl, rfl, rfl⟩

/-- If no directory entry passes the extension filter, a refresh of the
empty registry leaves it empty. -/
theorem update_files_nil (fs : FS) (exts : List String)
    (h : listdir fs exts = []) : update_files fs exts [] = [] := by
  simp [update_files, h]

/-- C10: if no matching file ever appears, `loop` with `blocking = false`
never reaches its `return`: every iteration is a refresh followed by a
sleep (the per-file loop body is skipped), for any number of iterations. -/
theorem logly_C10 (fs : FS) (exts : List String) (ms : Nat)
    (h : listdir fs exts = []) :
    ∀ n, loopFuel fs exts ms false [] n
      = ((List.replicate n [Ev.refreshEv, Ev.sleepEv]).flatten, false) := by
  intro n
  induction n with
  | zero => rfl
  | succ k ih =>
    have h0 : loopOnce fs exts ms [] false
        = ([], [Ev.refreshEv, Ev.sleepEv], [], false) := by
      simp [loopOnce, update_files_nil fs exts h, passFiles]
    rw [loopFuel, h0]
    simp [ih, List.replicate_succ]

/-- C10 witness: a directory holding only `b.txt` with extension filter
`["log"]`: two fuelled iterations produce refresh-sleep twice and the loop
has not returned. -/
theorem logly_C10_witness :
    listdir ⟨[("b.txt", "z")]⟩ ["log"] = [] ∧
    loopFuel ⟨[("b.txt", "z")]⟩ ["log"] 5 false [] 2
      = ((List.replicate 2 [Ev.refreshEv, Ev.sleepEv]).flatten, false) :=
  ⟨by decide, logly_C10 ⟨[("b.txt", "z")]⟩ ["log"] 5 (by decide) 2⟩

end Logly
